import Mathlib

/-
Verification of the FIDO U2F attestation verifier
(`verify.fidou2f.webauthn.js`) against its specification.

Byte buffers are modelled as `List Byte` with `Byte := Fin 256`.
Pure algorithms of the source file (authenticator-data parsing,
COSE-to-point conversion, PEM encoding, the orchestrator's control flow)
are embedded directly.  The external npm/Node primitives the source calls
(`crypto` SHA-256 and ECDSA, `cbor.decodeAllSync`, `base64url.toBuffer`)
are not part of the repository; they are modelled abstractly as the
fields of `ExternalPrims`, so every theorem about the orchestrator is
quantified over them.
-/

/-- A byte: a natural number below 256. -/
abbrev Byte := Fin 256

/-- Build a byte from a natural number (reduced mod 256). -/
def mkByte (v : Nat) : Byte := ⟨v % 256, Nat.mod_lt _ (by omega)⟩

/-- Error taxonomy of the spec (section 7).  The source throws generic
JavaScript errors (`new Error`, `RangeError` from out-of-range buffer
reads, `TypeError` from operations on `undefined`); following the spec's
stated mapping, each throw site is modelled by the taxonomy constructor
the spec assigns to it. -/
inductive VerifyError where
  | MalformedInput
  | MalformedAuthenticatorData
  | UnsupportedKeyFormat
  | UserNotPresent
  | InvalidInput
  deriving DecidableEq, Repr

/-- Decoded CBOR items as produced by `cbor.decodeAllSync`: integers,
byte strings (Buffers), text strings, arrays, and maps.  Map keys in the
inputs at hand are integers (COSE labels) or text (attestation-object
keys), so keys are modelled as `Int ⊕ String`. -/
inductive CBOR where
  | int (n : Int)
  | bytes (b : List Byte)
  | text (s : String)
  | array (elems : List CBOR)
  | map (entries : List ((Int ⊕ String) × CBOR))

/-- Lookup in a decoded CBOR map: `Map.get` for integer keys /
property access for text keys. -/
def cborLookup (key : Int ⊕ String) : List ((Int ⊕ String) × CBOR) → Option CBOR
  | [] => none
  | (k, v) :: rest => if k = key then some v else cborLookup key rest

/-- `Buffer.readUInt32BE(0)`: reads the first four bytes big-endian;
throws a `RangeError` (modelled as `none`) when fewer than four bytes
are available. -/
def readUInt32BE (b : List Byte) : Option Nat :=
  match b with
  | b0 :: b1 :: b2 :: b3 :: _ =>
      some (b0.val * 16777216 + b1.val * 65536 + b2.val * 256 + b3.val)
  | _ => none

/-- `Buffer.readUInt16BE(0)`: reads the first two bytes big-endian;
throws a `RangeError` (modelled as `none`) when fewer than two bytes
are available. -/
def readUInt16BE (b : List Byte) : Option Nat :=
  match b with
  | b0 :: b1 :: _ => some (b0.val * 256 + b1.val)
  | _ => none

/-- The record returned by `parseMakeCredAuthData`. -/
structure AuthrDataStruct where
  rpIdHash : List Byte
  flagsBuf : List Byte
  flags : Byte
  counter : Nat
  counterBuf : List Byte
  aaguid : List Byte
  credID : List Byte
  COSEPublicKey : List Byte
  deriving DecidableEq, Repr

/-- `parseMakeCredAuthData` (source lines 34-47).  JavaScript
`Buffer.slice` clamps to the available bytes, which `List.take` /
`List.drop` mirror exactly; the only failing operations are the two
big-endian reads (`readUInt32BE`, `readUInt16BE`), which throw when the
buffer ran short.  In the source `flags = flagsBuf[0]` is bound before
the counter read; when `flagsBuf` is empty that binding is `undefined`
but the counter read then throws before the record is built, so the
`headD` default below is unreachable in any returned record. -/
def parseMakeCredAuthData (buffer : List Byte) : Except VerifyError AuthrDataStruct :=
  let rpIdHash := buffer.take 32
  let buffer1 := buffer.drop 32
  let flagsBuf := buffer1.take 1
  let buffer2 := buffer1.drop 1
  let flags := flagsBuf.headD 0
  let counterBuf := buffer2.take 4
  let buffer3 := buffer2.drop 4
  match readUInt32BE counterBuf with
  | none => .error .MalformedAuthenticatorData
  | some counter =>
    let aaguid := buffer3.take 16
    let buffer4 := buffer3.drop 16
    let credIDLenBuf := buffer4.take 2
    let buffer5 := buffer4.drop 2
    match readUInt16BE credIDLenBuf with
    | none => .error .MalformedAuthenticatorData
    | some credIDLen =>
      let credID := buffer5.take credIDLen
      let COSEPublicKey := buffer5.drop credIDLen
      .ok { rpIdHash, flagsBuf, flags, counter, counterBuf, aaguid, credID, COSEPublicKey }

/-- The external Node/npm primitives the source file calls.  These live
outside the repository (node `crypto`, the `cbor` and `base64url`
packages); each field is modelled from the spec's description of the
corresponding collaborator (section 4.4 and the library calls named in
the source), and theorems about the pipeline quantify over them.
`cborDecodeAll` returns `none` where `cbor.decodeAllSync` throws;
`b64urlToBuffer` is total, as `base64url.toBuffer` never throws (Node's
lenient base64 decoder skips invalid characters). -/
structure ExternalPrims where
  sha256 : List Byte → List Byte
  cborDecodeAll : List Byte → Option (List CBOR)
  b64urlToBuffer : String → List Byte
  ecdsaVerify : (signature : List Byte) → (data : List Byte) → (publicKeyPem : List Char) → Bool

/-- `COSEECDHAtoPKCS` (source lines 49-73): decode the COSE key bytes,
take the first decoded item, read labels −2 and −3, and concatenate
`0x04 ‖ x ‖ y`.  The source performs no validation: any decode failure,
missing entry or non-Buffer entry makes `Buffer.concat` (or `.get` on
`undefined`) throw — modelled as `UnsupportedKeyFormat` per the spec's
taxonomy — while byte-string entries of any length are concatenated
unchecked. -/
def COSEECDHAtoPKCS (E : ExternalPrims) (COSEPublicKey : List Byte) : Except VerifyError (List Byte) :=
  match E.cborDecodeAll COSEPublicKey with
  | none => .error .UnsupportedKeyFormat
  | some items =>
    match items.head? with
    | none => .error .UnsupportedKeyFormat
    | some coseStruct =>
      match coseStruct with
      | .map m =>
        let tag : List Byte := [4]
        match cborLookup (Sum.inl (-2)) m, cborLookup (Sum.inl (-3)) m with
        | some (.bytes x), some (.bytes y) => .ok (tag ++ x ++ y)
        | _, _ => .error .UnsupportedKeyFormat
      | _ => .error .UnsupportedKeyFormat

/-- The base64 alphabet used by `Buffer.toString` with encoding
`base64` (standard alphabet, padded). -/
def base64Chars : List Char :=
  "ABCDEFGHIJKLMNOPQRSTUVWXYZabcdefghijklmnopqrstuvwxyz0123456789+/".toList

/-- Character for a six-bit group. -/
def sextetChar (n : Nat) : Char := base64Chars.getD n 'A'

/-- Standard padded base64 of a byte list, as produced by Node's
`buffer.toString` with encoding `base64`. -/
def base64Encode : List Byte → List Char
  | [] => []
  | [a] => [sextetChar (a.val / 4), sextetChar (a.val % 4 * 16), '=', '=']
  | [a, b] => [sextetChar (a.val / 4), sextetChar (a.val % 4 * 16 + b.val / 16),
               sextetChar (b.val % 16 * 4), '=']
  | a :: b :: c :: rest =>
      sextetChar (a.val / 4) :: sextetChar (a.val % 4 * 16 + b.val / 16) ::
      sextetChar (b.val % 16 * 4 + c.val / 64) :: sextetChar (c.val % 64) :: base64Encode rest

/-- Position of a character in a list, if present. -/
def charIndexIn (c : Char) : List Char → Option Nat
  | [] => none
  | d :: rest => if d = c then some 0 else (charIndexIn c rest).map (· + 1)

/-- Six-bit value of a base64 character. -/
def sextetIndex (c : Char) : Option Nat := charIndexIn c base64Chars

/-- Standard base64 decoding (the spec-side inverse used to state the
PEM round-trip): four characters at a time, honouring `=` padding. -/
def base64Decode : List Char → Option (List Byte)
  | [] => some []
  | c1 :: c2 :: c3 :: c4 :: rest =>
    match sextetIndex c1, sextetIndex c2 with
    | some i1, some i2 =>
      if c3 = '=' then
        if c4 = '=' ∧ rest = [] then some [mkByte (i1 * 4 + i2 / 16)] else none
      else
        match sextetIndex c3 with
        | some i3 =>
          if c4 = '=' then
            if rest = [] then
              some [mkByte (i1 * 4 + i2 / 16), mkByte (i2 % 16 * 16 + i3 / 4)]
            else none
          else
            match sextetIndex c4, base64Decode rest with
            | some i4, some bs =>
                some (mkByte (i1 * 4 + i2 / 16) :: mkByte (i2 % 16 * 16 + i3 / 4) ::
                      mkByte (i3 % 4 * 64 + i4) :: bs)
            | _, _ => none
        | none => none
    | _, _ => none
  | _ => none

/-- Value of a hex digit, as understood by `Buffer.from(s, 'hex')`. -/
def hexVal (c : Char) : Option Nat :=
  charIndexIn c "0123456789abcdef".toList

/-- `Buffer.from(s, 'hex')`: consume hex-digit pairs, stopping at the
first invalid pair (Node truncates there). -/
def hexToBytes : List Char → List Byte
  | c1 :: c2 :: rest =>
    match hexVal c1, hexVal c2 with
    | some h, some l => mkByte (h * 16 + l) :: hexToBytes rest
    | _, _ => []
  | _ => []

/-- The `for` loop of `ASN1toPEM` (source lines 110-114): for each
`i < ceil(length/64)` append `b64cert.substr(64*i, 64)` and a newline. -/
def pemWrap (b64cert : List Char) : List Char :=
  (List.range ((b64cert.length + 63) / 64)).foldl
    (fun PEMKey i => PEMKey ++ ((b64cert.drop (64 * i)).take 64) ++ ['\n']) []

/-- `ASN1toPEM` (source lines 80-119).  A 65-byte buffer starting with
`0x04` is prefixed with the hard-coded SubjectPublicKeyInfo header and
labelled PUBLIC KEY; anything else is used unchanged and labelled
CERTIFICATE; the base64 body is wrapped at 64 characters per line. -/
def ASN1toPEM (pkBuffer : List Byte) : List Char :=
  let framed :=
    if pkBuffer.length = 65 ∧ pkBuffer.headD 0 = 4 then
      (hexToBytes "3059301306072a8648ce3d020106082a8648ce3d030107034200".toList ++ pkBuffer,
       "PUBLIC KEY")
    else
      (pkBuffer, "CERTIFICATE")
  let b64cert := base64Encode framed.1
  let PEMKey := pemWrap b64cert
  ("-----BEGIN " ++ framed.2 ++ "-----\n").toList ++ PEMKey ++
    ("-----END " ++ framed.2 ++ "-----\n").toList

/-- The user-presence flag mask (source line 5). -/
def U2F_USER_PRESENTED : Nat := 0x01

/-- Shape of the input object: the source reads
`webAuthnResponse.response.attestationObject` and
`webAuthnResponse.response.clientDataJSON`, both encoded strings. -/
structure WebAuthnResponseInner where
  attestationObject : String
  clientDataJSON : String

/-- The top-level argument of `verifyFidoU2fAttestation`. -/
structure WebAuthnResponse where
  response : WebAuthnResponseInner

/-- `verifyFidoU2fAttestation` (source lines 121-138), the orchestrator.
Each `match` arm mirrors a source step; fall-through arms model the
generic JavaScript throw that the corresponding malformed shape causes
(property access on `undefined`, `Buffer` methods on non-buffers),
mapped to the spec's error taxonomy.  The `.error .InvalidInput` arm is
`ASN1toPEM`'s explicit `pkBuffer must be Buffer` guard. -/
def verifyFidoU2fAttestation (E : ExternalPrims) (webAuthnResponse : WebAuthnResponse) :
    Except VerifyError Bool :=
  let attestationBuffer := E.b64urlToBuffer webAuthnResponse.response.attestationObject
  match E.cborDecodeAll attestationBuffer with
  | none => .error .MalformedInput
  | some items =>
    match items.head? with
    | none => .error .MalformedInput
    | some ctapMakeCredResp =>
      match ctapMakeCredResp with
      | .map ctap =>
        match cborLookup (Sum.inr "authData") ctap with
        | some (.bytes authData) =>
          match parseMakeCredAuthData authData with
          | .error e => .error e
          | .ok authrDataStruct =>
            if authrDataStruct.flags.val &&& U2F_USER_PRESENTED = 0 then
              .error .UserNotPresent
            else
              let clientDataHash :=
                E.sha256 (E.b64urlToBuffer webAuthnResponse.response.clientDataJSON)
              let reservedByte : List Byte := [0]
              match COSEECDHAtoPKCS E authrDataStruct.COSEPublicKey with
              | .error e => .error e
              | .ok publicKey =>
                let signatureBase := reservedByte ++ authrDataStruct.rpIdHash ++
                  clientDataHash ++ authrDataStruct.credID ++ publicKey
                match cborLookup (Sum.inr "attStmt") ctap with
                | some (.map attStmt) =>
                  match cborLookup (Sum.inr "x5c") attStmt with
                  | some (.array x5c) =>
                    match x5c.head? with
                    | some (.bytes leafCert) =>
                      let PEMCertificate := ASN1toPEM leafCert
                      match cborLookup (Sum.inr "sig") attStmt with
                      | some (.bytes signature) =>
                          .ok (E.ecdsaVerify signature signatureBase PEMCertificate)
                      | _ => .error .MalformedInput
                    | _ => .error .InvalidInput
                  | _ => .error .MalformedInput
                | _ => .error .MalformedInput
        | _ => .error .MalformedInput
      | _ => .error .MalformedInput

/-- Line wrapping as the claims state it: chunks of 64 characters, each
followed by a newline (the effect of the source's `substr` loop). -/
def wrap64 (s : List Char) : List Char :=
  if s = [] then [] else s.take 64 ++ '\n' :: wrap64 (s.drop 64)
termination_by s.length
decreasing_by
  have := List.length_pos.mpr (by assumption : s ≠ [])
  simp only [List.length_drop]
  omega

/-- The 64-character chunks of a string, used to reason about the PEM
body line structure. -/
def chunksOf64 (s : List Char) : List (List Char) :=
  if s = [] then [] else s.take 64 :: chunksOf64 (s.drop 64)
termination_by s.length
decreasing_by
  have := List.length_pos.mpr (by assumption : s ≠ [])
  simp only [List.length_drop]
  omega

/-- The fixed 26-byte SubjectPublicKeyInfo header named by the claims
(hex 3059301306072a8648ce3d020106082a8648ce3d030107034200). -/
def spkiHeaderBytes : List Byte :=
  [0x30, 0x59, 0x30, 0x13, 0x06, 0x07, 0x2a, 0x86, 0x48, 0xce, 0x3d, 0x02, 0x01,
   0x06, 0x08, 0x2a, 0x86, 0x48, 0xce, 0x3d, 0x03, 0x01, 0x07, 0x03, 0x42, 0x00]

/-- A PEM frame as the claims describe it: BEGIN line, base64 body
wrapped at 64 characters per line, END line. -/
def pemFrame (label : String) (der : List Byte) : List Char :=
  ("-----BEGIN " ++ label ++ "-----\n").toList ++ wrap64 (base64Encode der) ++
    ("-----END " ++ label ++ "-----\n").toList

/-- The DER/PEM encoder exactly as claim C7 words it, to be compared
with the source-derived `ASN1toPEM`: a raw 65-byte point starting with
0x04 gets the fixed header and a PUBLIC KEY frame, anything else is
framed unchanged as CERTIFICATE. -/
def ASN1toPEM_described (buf : List Byte) : List Char :=
  if buf.length = 65 ∧ buf.headD 0 = 4 then pemFrame "PUBLIC KEY" (spkiHeaderBytes ++ buf)
  else pemFrame "CERTIFICATE" buf

/-- Split a character list at newlines (a final newline yields a last
empty line). -/
def splitLines : List Char → List (List Char)
  | [] => [[]]
  | c :: rest =>
    if c = '\n' then [] :: splitLines rest
    else
      match splitLines rest with
      | [] => [[c]]
      | l :: ls => (c :: l) :: ls

/-- Strip the PEM frame: drop every line that starts with a dash
(the BEGIN/END lines) and join the rest into the bare base64 body. -/
def stripFrames (pem : List Char) : List Char :=
  ((splitLines pem).filter (fun l => l.headD ' ' ≠ '-')).flatten

/-- Concrete 32-byte x-coordinate for the test instantiation. -/
def demoX : List Byte := List.replicate 32 1

/-- Concrete 32-byte y-coordinate for the test instantiation. -/
def demoY : List Byte := List.replicate 32 2

/-- Decoded COSE key map of the test instantiation: EC2 (kty 2),
P-256 (crv 1), 32-byte coordinates at labels −2 and −3. -/
def demoCoseMap : List ((Int ⊕ String) × CBOR) :=
  [(Sum.inl 1, CBOR.int 2), (Sum.inl (-1), CBOR.int 1),
   (Sum.inl (-2), CBOR.bytes demoX), (Sum.inl (-3), CBOR.bytes demoY)]

/-- Stand-in bytes for the encoded COSE key (the decode table of
`demoPrims` maps them to `demoCoseMap` followed by a trailing item). -/
def demoCoseBytes : List Byte := [0x99]

/-- Stand-in bytes for the same COSE key truncated to its first CBOR
item. -/
def demoCoseBytesTrunc : List Byte := [0x98]

/-- Test authenticatorData: 32-byte rpIdHash, flags 0x01 (user present),
counter 5, 16-byte aaguid, credentialId length 1, one credentialId byte,
then the COSE key bytes. -/
def demoAuthData : List Byte :=
  List.replicate 32 7 ++ [1] ++ [0, 0, 0, 5] ++ List.replicate 16 9 ++ [0, 1] ++
    [0xAA] ++ demoCoseBytes

/-- Test attestation signature bytes. -/
def demoSig : List Byte := [0x30, 0x01]

/-- Test leaf certificate bytes (not 65 bytes, so PEM-framed as a
certificate). -/
def demoCert : List Byte := [0x30, 0x03, 0x02, 0x01, 0x05]

/-- Decoded attestation statement of the test instantiation. -/
def demoAttStmtMap : List ((Int ⊕ String) × CBOR) :=
  [(Sum.inr "sig", CBOR.bytes demoSig),
   (Sum.inr "x5c", CBOR.array [CBOR.bytes demoCert])]

/-- Decoded attestation object of the test instantiation. -/
def demoCtapMap : List ((Int ⊕ String) × CBOR) :=
  [(Sum.inr "fmt", CBOR.text "fido-u2f"),
   (Sum.inr "authData", CBOR.bytes demoAuthData),
   (Sum.inr "attStmt", CBOR.map demoAttStmtMap)]

/-- The parsed form of `demoAuthData`. -/
def demoAuthRecord : AuthrDataStruct :=
  { rpIdHash := List.replicate 32 7, flagsBuf := [1], flags := 1,
    counter := 5, counterBuf := [0, 0, 0, 5], aaguid := List.replicate 16 9,
    credID := [0xAA], COSEPublicKey := demoCoseBytes }

/-- Stand-in bytes for the encoded attestation object. -/
def demoAttBytes : List Byte := [0x55]

/-- Stand-in bytes for the attestation object truncated to its first
CBOR item. -/
def demoAttBytesTrunc : List Byte := [0x56]

/-- A concrete instantiation of the external primitives used to
evaluate the pipeline in witnesses: the decode table returns the decoded
items for the specific stand-in buffers (the claims under test depend
only on the decoded values, never on the undecoded bytes), the hash
returns a fixed 32-byte digest, and the signature check accepts. -/
def demoPrims : ExternalPrims where
  sha256 := fun _ => List.replicate 32 3
  cborDecodeAll := fun b =>
    if b = demoAttBytes then some [CBOR.map demoCtapMap, CBOR.int 0]
    else if b = demoAttBytesTrunc then some [CBOR.map demoCtapMap]
    else if b = demoCoseBytes then some [CBOR.map demoCoseMap, CBOR.int 1]
    else if b = demoCoseBytesTrunc then some [CBOR.map demoCoseMap]
    else none
  b64urlToBuffer := fun s =>
    if s = "ATT" then demoAttBytes
    else if s = "ATT2" then demoAttBytesTrunc
    else if s = "CDJ" then [0x11]
    else []
  ecdsaVerify := fun _ _ _ => true

/-- Test response whose attestation object decodes to `demoCtapMap`
with a trailing CBOR item. -/
def demoResp : WebAuthnResponse := ⟨⟨"ATT", "CDJ"⟩⟩

/-- Test response whose attestation object decodes to `demoCtapMap`
alone (the truncated input of C10). -/
def demoRespTrunc : WebAuthnResponse := ⟨⟨"ATT2", "CDJ"⟩⟩

/-- Test response whose attestation object fails to decode. -/
def demoRespBad : WebAuthnResponse := ⟨⟨"BAD", "CDJ"⟩⟩

/-- A 55-byte buffer whose credentialId-length field declares 10 bytes
although zero bytes remain after offset 55: the layout requires more
bytes than the buffer holds. -/
def oversizedLenBuf : List Byte := List.replicate 53 0 ++ [0, 10]

/-- Decoded COSE map that is not a valid EC2/P-256 key: kty 3 (RSA) and
one-byte coordinates.  `shortCoordBytes` is its genuine CBOR encoding. -/
def shortCoordMap : List ((Int ⊕ String) × CBOR) :=
  [(Sum.inl 1, CBOR.int 3), (Sum.inl (-2), CBOR.bytes [1]), (Sum.inl (-3), CBOR.bytes [2])]

/-- CBOR bytes of the map with kty 3 and one-byte coordinates:
a3 01 03 21 41 01 22 41 02. -/
def shortCoordBytes : List Byte := [0xa3, 0x01, 0x03, 0x21, 0x41, 0x01, 0x22, 0x41, 0x02]

/-- External-primitive instantiation whose decoder returns the
malformed COSE map above for its encoding. -/
def shortCoordPrims : ExternalPrims where
  sha256 := fun _ => []
  cborDecodeAll := fun b => if b = shortCoordBytes then some [CBOR.map shortCoordMap] else none
  b64urlToBuffer := fun _ => []
  ecdsaVerify := fun _ _ _ => false

/-- External-primitive instantiation whose decoder always fails,
realising a non-decodable attestation object. -/
def failDecodePrims : ExternalPrims where
  sha256 := fun _ => []
  cborDecodeAll := fun _ => none
  b64urlToBuffer := fun _ => []
  ecdsaVerify := fun _ _ _ => false

/-- Take of one leading element, used to step the parser over the flags
field. -/
theorem take_one_cons {α : Type} (a : α) (t : List α) : List.take 1 (a :: t) = [a] := rfl

/-- Take of two leading elements (the credentialId-length field). -/
theorem take_two_cons {α : Type} (a b : α) (t : List α) :
    List.take 2 (a :: b :: t) = [a, b] := rfl

/-- Take of four leading elements (the counter field). -/
theorem take_four_cons {α : Type} (a b c d : α) (t : List α) :
    List.take 4 (a :: b :: c :: d :: t) = [a, b, c, d] := rfl

/-- Drop of one leading element. -/
theorem drop_one_cons {α : Type} (a : α) (t : List α) : List.drop 1 (a :: t) = t := rfl

/-- Drop of two leading elements. -/
theorem drop_two_cons {α : Type} (a b : α) (t : List α) : List.drop 2 (a :: b :: t) = t := rfl

/-- Drop of four leading elements. -/
theorem drop_four_cons {α : Type} (a b c d : α) (t : List α) :
    List.drop 4 (a :: b :: c :: d :: t) = t := rfl

/-- Helper: a successful parse forces the buffer to hold at least the 55
fixed-layout bytes, and then the rpIdHash slice is exactly 32 bytes. -/
theorem parseMakeCredAuthData_ok_length {buf : List Byte} {r : AuthrDataStruct}
    (h : parseMakeCredAuthData buf = Except.ok r) :
    55 ≤ buf.length ∧ r.rpIdHash.length = 32 := by
  unfold parseMakeCredAuthData at h
  simp only [] at h
  rcases h32 : readUInt32BE (((buf.drop 32).drop 1).take 4) with _ | c
  · rw [h32] at h; exact absurd h (by simp)
  · rw [h32] at h
    rcases h16 : readUInt16BE (((((buf.drop 32).drop 1).drop 4).drop 16).take 2) with _ | n
    · rw [h16] at h; exact absurd h (by simp)
    · rw [h16] at h
      have hlen16 : 2 ≤ (((((buf.drop 32).drop 1).drop 4).drop 16).take 2).length := by
        rcases hl : ((((buf.drop 32).drop 1).drop 4).drop 16).take 2 with _ | ⟨a, _ | ⟨b, t⟩⟩
        · rw [hl] at h16; simp [readUInt16BE] at h16
        · rw [hl] at h16; simp [readUInt16BE] at h16
        · simp
      have hb : 55 ≤ buf.length := by
        simp only [List.length_take, List.length_drop] at hlen16
        omega
      refine ⟨hb, ?_⟩
      have hr : r.rpIdHash = buf.take 32 := by
        cases h
        rfl
      rw [hr, List.length_take]
      omega

/-- C3.  A buffer laid out as rpIdHash(32) ‖ flags(1) ‖ counter(4) ‖
aaguid(16) ‖ length(2, big-endian, equal to the credentialId length) ‖
credentialId ‖ COSE key parses into exactly those fields, with the
counter read big-endian and the COSE key being precisely the trailing
bytes. -/
theorem parseMakeCredAuthData_wellFormed
    (rp : List Byte) (fl : Byte) (c0 c1 c2 c3 : Byte) (ag : List Byte)
    (hi lo : Byte) (cid key : List Byte)
    (hrp : rp.length = 32) (hag : ag.length = 16)
    (hlen : hi.val * 256 + lo.val = cid.length) :
    parseMakeCredAuthData
      (rp ++ ([fl] ++ ([c0, c1, c2, c3] ++ (ag ++ ([hi, lo] ++ (cid ++ key)))))) =
      Except.ok { rpIdHash := rp, flagsBuf := [fl], flags := fl,
                  counter := c0.val * 16777216 + c1.val * 65536 + c2.val * 256 + c3.val,
                  counterBuf := [c0, c1, c2, c3], aaguid := ag,
                  credID := cid, COSEPublicKey := key } := by
  simp only [parseMakeCredAuthData]
  rw [List.take_left' hrp, List.drop_left' hrp]
  simp only [List.cons_append, List.nil_append, take_one_cons, drop_one_cons,
    take_four_cons, drop_four_cons, List.headD_cons]
  rw [List.take_left' hag, List.drop_left' hag]
  simp only [readUInt32BE, readUInt16BE, take_two_cons, drop_two_cons]
  rw [hlen, List.take_left, List.drop_left]

/-- Witness for C3 at a concrete well-formed buffer. -/
theorem parseMakeCredAuthData_wellFormed_instance :
    parseMakeCredAuthData
        (List.replicate 32 7 ++ ([1] ++ ([0, 0, 0, 5] ++ (List.replicate 16 9 ++
          ([0, 2] ++ ([170, 171] ++ [163, 99])))))) =
      Except.ok { rpIdHash := List.replicate 32 7, flagsBuf := [1], flags := 1,
                  counter := 5, counterBuf := [0, 0, 0, 5],
                  aaguid := List.replicate 16 9,
                  credID := [170, 171], COSEPublicKey := [163, 99] } := by
  have h := parseMakeCredAuthData_wellFormed (List.replicate 32 7) 1 0 0 0 5
    (List.replicate 16 9) 0 2 [170, 171] [163, 99] (by decide) (by decide) (by decide)
  simpa using h

/-- Counterexample to C4: `oversizedLenBuf` is 55 bytes long and its
16-bit length field declares 10 credentialId bytes although none remain,
yet the parser succeeds and silently returns a truncated (empty)
credentialId and empty COSE key instead of failing. -/
theorem parse_oversizedLen_succeeds :
    parseMakeCredAuthData oversizedLenBuf =
      Except.ok { rpIdHash := List.replicate 32 0, flagsBuf := [0], flags := 0,
                  counter := 0, counterBuf := [0, 0, 0, 0],
                  aaguid := List.replicate 16 0, credID := [], COSEPublicKey := [] } := by
  rfl

/-- The four-byte big-endian read of a clamped slice fails exactly when
fewer than four bytes were available. -/
theorem readUInt32BE_take_none_iff (l : List Byte) :
    readUInt32BE (l.take 4) = none ↔ l.length < 4 := by
  rcases l with _ | ⟨a, _ | ⟨b, _ | ⟨c, _ | ⟨d, t⟩⟩⟩⟩ <;> simp [readUInt32BE]

/-- The two-byte big-endian read of a clamped slice fails exactly when
fewer than two bytes were available. -/
theorem readUInt16BE_take_none_iff (l : List Byte) :
    readUInt16BE (l.take 2) = none ↔ l.length < 2 := by
  rcases l with _ | ⟨a, _ | ⟨b, t⟩⟩ <;> simp [readUInt16BE]

/-- C4 as amended.  The parser fails (with MalformedAuthenticatorData)
exactly on buffers shorter than the 55 fixed-layout bytes; any buffer of
at least 55 bytes parses successfully — in particular, a declared
credentialId length exceeding the remaining bytes is not rejected, the
credentialId slice being clamped to what is available (see the
counterexample `parse_oversizedLen_succeeds`). -/
theorem parseMakeCredAuthData_error_iff_short (buf : List Byte) :
    (buf.length < 55 →
        parseMakeCredAuthData buf = Except.error VerifyError.MalformedAuthenticatorData) ∧
      (55 ≤ buf.length → (parseMakeCredAuthData buf).isOk = true) := by
  unfold parseMakeCredAuthData
  simp only []
  rcases h32 : readUInt32BE (((buf.drop 32).drop 1).take 4) with _ | c
  · have hlen : ((buf.drop 32).drop 1).length < 4 := (readUInt32BE_take_none_iff _).mp h32
    simp only [List.length_drop] at hlen
    exact ⟨fun _ => rfl, fun hge => by omega⟩
  · have hlen4 : ¬ ((buf.drop 32).drop 1).length < 4 := by
      rw [← readUInt32BE_take_none_iff, h32]
      simp
    simp only [List.length_drop] at hlen4
    rcases h16 : readUInt16BE (((((buf.drop 32).drop 1).drop 4).drop 16).take 2) with _ | n
    · have hlen : ((((buf.drop 32).drop 1).drop 4).drop 16).length < 2 :=
        (readUInt16BE_take_none_iff _).mp h16
      simp only [List.length_drop] at hlen
      exact ⟨fun _ => rfl, fun hge => by omega⟩
    · have hlen2 : ¬ ((((buf.drop 32).drop 1).drop 4).drop 16).length < 2 := by
        rw [← readUInt16BE_take_none_iff, h16]
        simp
      simp only [List.length_drop] at hlen2
      exact ⟨fun hlt => by omega, fun _ => rfl⟩

/-- Witness for the amended C4 at concrete inputs on both sides of the
55-byte boundary. -/
theorem parseMakeCredAuthData_error_iff_short_instance :
    parseMakeCredAuthData (List.replicate 54 0) =
        Except.error VerifyError.MalformedAuthenticatorData ∧
      (parseMakeCredAuthData (List.replicate 60 0)).isOk = true :=
  ⟨(parseMakeCredAuthData_error_iff_short (List.replicate 54 0)).1 (by simp),
   (parseMakeCredAuthData_error_iff_short (List.replicate 60 0)).2 (by simp)⟩

/-- Counterexample to C5: for the decoded COSE map with key type 3
(RSA, not EC2) and one-byte coordinates — `shortCoordBytes` is its
genuine CBOR encoding — the conversion does not fail with
UnsupportedKeyFormat but happily returns the 3-byte buffer
`0x04 ‖ 0x01 ‖ 0x02`. -/
theorem cose_shortCoords_accepted :
    COSEECDHAtoPKCS shortCoordPrims shortCoordBytes = Except.ok [4, 1, 2] ∧
      ([4, 1, 2] : List Byte).length = 3 := ⟨rfl, rfl⟩

/-- C5 as amended.  Once the COSE key bytes decode to a map, the
conversion fails (UnsupportedKeyFormat, the spec's name for the
`Buffer.concat` TypeError) only when the x entry (label −2) or the
y entry (label −3) is missing or not a byte string; whenever both are
byte strings it returns `0x04 ‖ x ‖ y` unconditionally — no key-type
check and no coordinate-length check, so the output is 65 bytes exactly
when the coordinates are 32 bytes each. -/
theorem COSEECDHAtoPKCS_amended
    (E : ExternalPrims) (cose : List Byte) (m : List ((Int ⊕ String) × CBOR))
    (rest : List CBOR)
    (hdec : E.cborDecodeAll cose = some (CBOR.map m :: rest)) :
    (∀ x y, cborLookup (Sum.inl (-2)) m = some (CBOR.bytes x) →
        cborLookup (Sum.inl (-3)) m = some (CBOR.bytes y) →
        COSEECDHAtoPKCS E cose = Except.ok ([4] ++ x ++ y)) ∧
      (cborLookup (Sum.inl (-2)) m = none →
        COSEECDHAtoPKCS E cose = Except.error VerifyError.UnsupportedKeyFormat) := by
  unfold COSEECDHAtoPKCS
  rw [hdec]
  simp only [List.head?_cons]
  constructor
  · intro x y hx hy
    rw [hx, hy]
  · intro hx
    rw [hx]

/-- Witness for the amended C5: the short-coordinate key is converted,
not rejected. -/
theorem COSEECDHAtoPKCS_amended_instance :
    COSEECDHAtoPKCS shortCoordPrims shortCoordBytes = Except.ok ([4] ++ [1] ++ [2]) :=
  (COSEECDHAtoPKCS_amended shortCoordPrims shortCoordBytes shortCoordMap [] rfl).1
    [1] [2] rfl rfl

/-- C9.  When the attestationObject bytes fail to CBOR-decode, the
pipeline aborts with MalformedInput; it never reaches the signature
check, so it cannot return false (or any boolean) for such input. -/
theorem verify_malformedAttestation_errors (E : ExternalPrims) (resp : WebAuthnResponse)
    (hdec : E.cborDecodeAll (E.b64urlToBuffer resp.response.attestationObject) = none) :
    verifyFidoU2fAttestation E resp = Except.error VerifyError.MalformedInput := by
  unfold verifyFidoU2fAttestation
  simp only []
  rw [hdec]

/-- Witness for C9 under the always-failing decoder. -/
theorem verify_malformedAttestation_errors_instance :
    verifyFidoU2fAttestation failDecodePrims demoRespBad =
      Except.error VerifyError.MalformedInput :=
  verify_malformedAttestation_errors failDecodePrims demoRespBad rfl

/-- C10.  Both CBOR decoding sites use only the first decoded item:
if the attestation object bytes decode to an item followed by trailing
items, the pipeline result is identical to that for bytes decoding to
the first item alone (same clientDataJSON); likewise the COSE key
conversion gives identical results when the decoded lists share their
first item, the trailing items being silently ignored rather than
rejected. -/
theorem verify_uses_first_cbor_item :
    (∀ (E : ExternalPrims) (a1 a2 cdj : String) (c : CBOR) (rest : List CBOR),
        E.cborDecodeAll (E.b64urlToBuffer a1) = some (c :: rest) →
        E.cborDecodeAll (E.b64urlToBuffer a2) = some [c] →
        verifyFidoU2fAttestation E ⟨⟨a1, cdj⟩⟩ = verifyFidoU2fAttestation E ⟨⟨a2, cdj⟩⟩) ∧
      (∀ (E : ExternalPrims) (b1 b2 : List Byte) (c : CBOR) (rest : List CBOR),
        E.cborDecodeAll b1 = some (c :: rest) →
        E.cborDecodeAll b2 = some [c] →
        COSEECDHAtoPKCS E b1 = COSEECDHAtoPKCS E b2) := by
  constructor
  · intro E a1 a2 cdj c rest h1 h2
    unfold verifyFidoU2fAttestation
    simp only []
    rw [h1, h2]
    simp only [List.head?_cons]
  · intro E b1 b2 c rest h1 h2
    unfold COSEECDHAtoPKCS
    rw [h1, h2]
    simp only [List.head?_cons]

/-- Witness for C10: under `demoPrims`, the response whose attestation
object decodes with a trailing CBOR item verifies identically to the
truncated one, and the COSE conversion likewise ignores a trailing
item. -/
theorem verify_uses_first_cbor_item_instance :
    verifyFidoU2fAttestation demoPrims demoResp =
        verifyFidoU2fAttestation demoPrims demoRespTrunc ∧
      COSEECDHAtoPKCS demoPrims demoCoseBytes = COSEECDHAtoPKCS demoPrims demoCoseBytesTrunc :=
  ⟨verify_uses_first_cbor_item.1 demoPrims "ATT" "ATT2" "CDJ" (CBOR.map demoCtapMap)
      [CBOR.int 0] rfl rfl,
   verify_uses_first_cbor_item.2 demoPrims demoCoseBytes demoCoseBytesTrunc
      (CBOR.map demoCoseMap) [CBOR.int 1] rfl rfl⟩

/-- Helper: every error produced by the COSE conversion is
UnsupportedKeyFormat. -/
theorem COSEECDHAtoPKCS_error_eq {E : ExternalPrims} {b : List Byte} {e : VerifyError}
    (h : COSEECDHAtoPKCS E b = Except.error e) : e = VerifyError.UnsupportedKeyFormat := by
  unfold COSEECDHAtoPKCS at h
  split at h
  · exact (Except.error.inj h).symm
  · split at h
    · exact (Except.error.inj h).symm
    · split at h
      · dsimp only at h
        split at h
        · exact absurd h (by simp)
        · exact (Except.error.inj h).symm
      · exact (Except.error.inj h).symm

/-- Helper: the COSE conversion succeeds with `0x04 ‖ x ‖ y` whenever
the first decoded item is a map carrying byte strings at labels −2
and −3. -/
theorem COSEECDHAtoPKCS_ok_of_entries (E : ExternalPrims) (cose : List Byte)
    (m : List ((Int ⊕ String) × CBOR)) (rest : List CBOR) (x y : List Byte)
    (hdec : E.cborDecodeAll cose = some (CBOR.map m :: rest))
    (hx : cborLookup (Sum.inl (-2)) m = some (CBOR.bytes x))
    (hy : cborLookup (Sum.inl (-3)) m = some (CBOR.bytes y)) :
    COSEECDHAtoPKCS E cose = Except.ok ([4] ++ x ++ y) := by
  unfold COSEECDHAtoPKCS
  rw [hdec]
  simp only [List.head?_cons]
  rw [hx, hy]

/-- C6.  Once the attestation object decodes and the authenticator data
parses, the pipeline fails with UserNotPresent exactly when bit 0 of the
flags byte is clear; when bit 0 is set, UserNotPresent can never be the
outcome, whatever the other seven bits hold (the check is
`flags AND 0x01`, which depends only on the parity of the byte). -/
theorem verify_userPresence_iff (E : ExternalPrims) (resp : WebAuthnResponse)
    (ctap : List ((Int ⊕ String) × CBOR)) (rest : List CBOR) (ad : List Byte)
    (r : AuthrDataStruct)
    (hdec : E.cborDecodeAll (E.b64urlToBuffer resp.response.attestationObject) =
      some (CBOR.map ctap :: rest))
    (had : cborLookup (Sum.inr "authData") ctap = some (CBOR.bytes ad))
    (hparse : parseMakeCredAuthData ad = Except.ok r) :
    (verifyFidoU2fAttestation E resp = Except.error VerifyError.UserNotPresent ↔
      r.flags.val % 2 = 0) := by
  unfold verifyFidoU2fAttestation
  simp only []
  rw [hdec]
  simp only [List.head?_cons]
  rw [had]
  dsimp only
  rw [hparse]
  dsimp only
  simp only [U2F_USER_PRESENTED, Nat.and_one_is_mod]
  by_cases hf : r.flags.val % 2 = 0
  · rw [if_pos hf]
    simp [hf]
  · rw [if_neg hf]
    simp only [hf, iff_false]
    rcases hC : COSEECDHAtoPKCS E r.COSEPublicKey with e | pk
    · have he := COSEECDHAtoPKCS_error_eq hC
      subst he
      simp
    · intro hcontra
      repeat' split at hcontra
      all_goals simp_all

/-- Witness for C6 at the concrete test instantiation, whose flags byte
is 0x01. -/
theorem verify_userPresence_iff_instance :
    (verifyFidoU2fAttestation demoPrims demoResp = Except.error VerifyError.UserNotPresent ↔
      demoAuthRecord.flags.val % 2 = 0) :=
  verify_userPresence_iff demoPrims demoResp demoCtapMap [CBOR.int 0] demoAuthData
    demoAuthRecord rfl rfl rfl

/-- C2.  For every input on which the pipeline reaches the signature
check, the data buffer handed to the verifier is exactly
0x00 ‖ rpIdHash ‖ SHA-256(clientDataJSON) ‖ credentialId ‖ 0x04 ‖ x ‖ y,
in that order with nothing omitted or inserted; the rpIdHash slice is
exactly 32 bytes, and the trailing uncompressed point is 65 bytes
whenever the coordinates are 32-byte P-256 coordinates (the hash's
32-byte size is the external SHA-256's contract, see `ExternalPrims`). -/
theorem verify_signatureBase_layout (E : ExternalPrims) (resp : WebAuthnResponse)
    (ctap stmt : List ((Int ⊕ String) × CBOR)) (rest : List CBOR) (ad : List Byte)
    (r : AuthrDataStruct) (km : List ((Int ⊕ String) × CBOR)) (krest : List CBOR)
    (x y cert sig : List Byte) (certTail : List CBOR)
    (hdec : E.cborDecodeAll (E.b64urlToBuffer resp.response.attestationObject) =
      some (CBOR.map ctap :: rest))
    (had : cborLookup (Sum.inr "authData") ctap = some (CBOR.bytes ad))
    (hparse : parseMakeCredAuthData ad = Except.ok r)
    (hflags : r.flags.val &&& U2F_USER_PRESENTED ≠ 0)
    (hcose : E.cborDecodeAll r.COSEPublicKey = some (CBOR.map km :: krest))
    (hx : cborLookup (Sum.inl (-2)) km = some (CBOR.bytes x))
    (hy : cborLookup (Sum.inl (-3)) km = some (CBOR.bytes y))
    (hstmt : cborLookup (Sum.inr "attStmt") ctap = some (CBOR.map stmt))
    (hx5c : cborLookup (Sum.inr "x5c") stmt = some (CBOR.array (CBOR.bytes cert :: certTail)))
    (hsig : cborLookup (Sum.inr "sig") stmt = some (CBOR.bytes sig)) :
    verifyFidoU2fAttestation E resp =
        Except.ok (E.ecdsaVerify sig
          ([0] ++ r.rpIdHash ++ E.sha256 (E.b64urlToBuffer resp.response.clientDataJSON) ++
            r.credID ++ ([4] ++ x ++ y))
          (ASN1toPEM cert)) ∧
      r.rpIdHash.length = 32 ∧
      (x.length = 32 → y.length = 32 → (([4] ++ x ++ y) : List Byte).length = 65) := by
  refine ⟨?_, (parseMakeCredAuthData_ok_length hparse).2, ?_⟩
  · unfold verifyFidoU2fAttestation
    simp only []
    rw [hdec]
    simp only [List.head?_cons]
    rw [had]
    dsimp only
    rw [hparse]
    dsimp only
    rw [if_neg hflags]
    rw [COSEECDHAtoPKCS_ok_of_entries E r.COSEPublicKey km krest x y hcose hx hy]
    dsimp only
    rw [hstmt]
    dsimp only
    rw [hx5c]
    simp only [List.head?_cons]
    rw [hsig]
  · intro hx32 hy32
    simp [hx32, hy32]

/-- Witness for C2 at the concrete test instantiation. -/
theorem verify_signatureBase_layout_instance :
    verifyFidoU2fAttestation demoPrims demoResp =
        Except.ok (demoPrims.ecdsaVerify demoSig
          ([0] ++ demoAuthRecord.rpIdHash ++
            demoPrims.sha256 (demoPrims.b64urlToBuffer "CDJ") ++
            demoAuthRecord.credID ++ ([4] ++ demoX ++ demoY))
          (ASN1toPEM demoCert)) ∧
      demoAuthRecord.rpIdHash.length = 32 ∧
      (demoX.length = 32 → demoY.length = 32 →
        (([4] ++ demoX ++ demoY) : List Byte).length = 65) :=
  verify_signatureBase_layout demoPrims demoResp demoCtapMap demoAttStmtMap
    [CBOR.int 0] demoAuthData demoAuthRecord demoCoseMap [CBOR.int 1]
    demoX demoY demoCert demoSig [] rfl rfl rfl (by decide) rfl rfl rfl rfl rfl rfl

/-- Decoding a base64 character recovers the six-bit value it encodes. -/
theorem sextetIndex_sextetChar : ∀ n, n < 64 → sextetIndex (sextetChar n) = some n := by
  decide

/-- Base64 alphabet characters are never the padding character. -/
theorem sextetChar_ne_pad : ∀ n, n < 64 → sextetChar n ≠ '=' := by
  decide

/-- Two byte builds agree when the value matches. -/
theorem mkByte_eq_of (v : Nat) (a : Byte) (h : v = a.val) : mkByte v = a := by
  subst h
  exact Fin.ext (Nat.mod_eq_of_lt a.isLt)

/-- Base64 decoding inverts base64 encoding. -/
theorem base64Decode_base64Encode (b : List Byte) :
    base64Decode (base64Encode b) = some b := by
  induction b using base64Encode.induct with
  | case1 => rfl
  | case2 a =>
    have ha := a.isLt
    have h1 := sextetIndex_sextetChar (a.val / 4) (by omega)
    have h2 := sextetIndex_sextetChar (a.val % 4 * 16) (by omega)
    simp [base64Encode, base64Decode, h1, h2, mkByte, Fin.ext_iff]
    omega
  | case3 a b =>
    have ha := a.isLt
    have hb := b.isLt
    have h1 := sextetIndex_sextetChar (a.val / 4) (by omega)
    have h2 := sextetIndex_sextetChar (a.val % 4 * 16 + b.val / 16) (by omega)
    have h3 := sextetIndex_sextetChar (b.val % 16 * 4) (by omega)
    have hne3 := sextetChar_ne_pad (b.val % 16 * 4) (by omega)
    simp [base64Encode, base64Decode, h1, h2, h3, hne3, mkByte, Fin.ext_iff]
    omega
  | case4 a b c rest ih =>
    have ha := a.isLt
    have hb := b.isLt
    have hc := c.isLt
    have h1 := sextetIndex_sextetChar (a.val / 4) (by omega)
    have h2 := sextetIndex_sextetChar (a.val % 4 * 16 + b.val / 16) (by omega)
    have h3 := sextetIndex_sextetChar (b.val % 16 * 4 + c.val / 64) (by omega)
    have h4 := sextetIndex_sextetChar (c.val % 64) (by omega)
    have hne3 := sextetChar_ne_pad (b.val % 16 * 4 + c.val / 64) (by omega)
    have hne4 := sextetChar_ne_pad (c.val % 64) (by omega)
    simp [base64Encode, base64Decode, h1, h2, h3, h4, hne3, hne4, ih, mkByte,
      Fin.ext_iff]
    omega

/-- Every six-bit group maps into the base64 alphabet (out-of-range
indices fall back to the default character, itself in the alphabet). -/
theorem sextetChar_mem (n : Nat) : sextetChar n ∈ base64Chars := by
  by_cases h : n < base64Chars.length
  · have hb : ∀ m, m < 64 → sextetChar m ∈ base64Chars := by decide
    exact hb n (by simpa using h)
  · unfold sextetChar
    rw [List.getD_eq_default _ _ (by omega)]
    decide

/-- Base64 output never contains a newline or a dash. -/
theorem base64Encode_chars (b : List Byte) :
    ∀ ch ∈ base64Encode b, ch ≠ '\n' ∧ ch ≠ '-' := by
  have halpha : ∀ n, sextetChar n ≠ '\n' ∧ sextetChar n ≠ '-' := by
    intro n
    have h := sextetChar_mem n
    have hall : ∀ c ∈ base64Chars, c ≠ '\n' ∧ c ≠ '-' := by decide
    exact hall _ h
  induction b using base64Encode.induct with
  | case1 => simp [base64Encode]
  | case2 a =>
    intro ch hch
    simp only [base64Encode, List.mem_cons, List.not_mem_nil, or_false] at hch
    rcases hch with rfl | rfl | rfl | rfl
    · exact halpha _
    · exact halpha _
    · decide
    · decide
  | case3 a b =>
    intro ch hch
    simp only [base64Encode, List.mem_cons, List.not_mem_nil, or_false] at hch
    rcases hch with rfl | rfl | rfl | rfl
    · exact halpha _
    · exact halpha _
    · exact halpha _
    · decide
  | case4 a b c rest ih =>
    intro ch hch
    simp only [base64Encode, List.mem_cons] at hch
    rcases hch with rfl | rfl | rfl | rfl | hm
    · exact halpha _
    · exact halpha _
    · exact halpha _
    · exact halpha _
    · exact ih ch hm

/-- Folding the PEM loop from a non-empty accumulator prepends it. -/
theorem pemWrap_foldl_acc (s : List Char) (l : List Nat) (acc : List Char) :
    l.foldl (fun k i => k ++ (s.drop (64 * i)).take 64 ++ ['\n']) acc =
      acc ++ l.foldl (fun k i => k ++ (s.drop (64 * i)).take 64 ++ ['\n']) [] := by
  induction l generalizing acc with
  | nil => simp
  | cons i t ih =>
    simp only [List.foldl_cons]
    rw [ih, ih (([] : List Char) ++ (s.drop (64 * i)).take 64 ++ ['\n'])]
    simp [List.append_assoc]

/-- The source's `substr` loop produces exactly the 64-character
chunking with trailing newlines. -/
theorem pemWrap_eq_wrap64 (s : List Char) : pemWrap s = wrap64 s := by
  induction s using wrap64.induct with
  | case1 =>
    rw [wrap64]
    rfl
  | case2 s h ih =>
    have hpos : 0 < s.length := List.length_pos.mpr h
    unfold pemWrap
    have hn1 : (s.length + 63) / 64 = ((s.drop 64).length + 63) / 64 + 1 := by
      simp only [List.length_drop]
      omega
    have hdropshift : ∀ i : Nat, s.drop (64 * Nat.succ i) = (s.drop 64).drop (64 * i) := by
      intro i
      rw [List.drop_drop]
      congr 1
      omega
    rw [hn1, List.range_succ_eq_map]
    simp only [List.foldl_cons, List.foldl_map, Nat.mul_zero, List.drop_zero,
      List.nil_append]
    simp only [hdropshift]
    rw [pemWrap_foldl_acc]
    have hrec : (List.range (((s.drop 64).length + 63) / 64)).foldl
        (fun k i => k ++ ((s.drop 64).drop (64 * i)).take 64 ++ ['\n']) [] =
      pemWrap (s.drop 64) := rfl
    rw [hrec, ih]
    conv_rhs => rw [wrap64]
    rw [if_neg h]
    simp [List.append_assoc]

/-- Splitting after a newline-free prefix cuts exactly at the explicit
newline. -/
theorem splitLines_append_nl (l r : List Char) (h : '\n' ∉ l) :
    splitLines (l ++ '\n' :: r) = l :: splitLines r := by
  induction l with
  | nil => simp [splitLines]
  | cons c t ih =>
    have hc : c ≠ '\n' := by
      intro hcc
      exact h (by simp [hcc])
    have ht : '\n' ∉ t := by
      intro hm
      exact h (by simp [hm])
    simp only [List.cons_append, splitLines, if_neg hc]
    have ih2 : splitLines (t.append ('\n' :: r)) = t :: splitLines r := ih ht
    rw [ih2]

/-- Splitting after a newline-free three-part prefix (the PEM frame
lines are built from three pieces). -/
theorem splitLines_prefix3 (a b c r : List Char) (h : '\n' ∉ a ++ (b ++ c)) :
    splitLines (a ++ (b ++ (c ++ '\n' :: r))) = (a ++ (b ++ c)) :: splitLines r := by
  have hwith := splitLines_append_nl (a ++ (b ++ c)) r h
  rw [← hwith]
  congr 1
  simp [List.append_assoc]

/-- The wrapped body contributes exactly its 64-character chunks as
lines. -/
theorem splitLines_wrap64_append (s r : List Char) :
    (∀ ch ∈ s, ch ≠ '\n') →
      splitLines (wrap64 s ++ r) = chunksOf64 s ++ splitLines r := by
  induction s using wrap64.induct with
  | case1 =>
    intro _
    rw [wrap64, chunksOf64]
    simp
  | case2 s h ih =>
    intro hs
    rw [wrap64, if_neg h]
    conv_rhs => rw [chunksOf64, if_neg h]
    have hns : '\n' ∉ s.take 64 := by
      intro hm
      exact hs '\n' (List.take_subset _ _ hm) rfl
    rw [List.append_assoc, List.cons_append, splitLines_append_nl _ _ hns,
      ih (fun ch hm => hs ch (List.drop_subset _ _ hm)), List.cons_append]

/-- Dash-free chunks all survive the frame filter and flatten back to
the original string. -/
theorem flatten_filter_chunks (s : List Char) :
    (∀ ch ∈ s, ch ≠ '-') →
      ((chunksOf64 s).filter (fun l => l.headD ' ' ≠ '-')).flatten = s := by
  induction s using chunksOf64.induct with
  | case1 =>
    intro _
    rw [chunksOf64]
    simp
  | case2 s h ih =>
    intro hs
    rw [chunksOf64, if_neg h]
    obtain ⟨c, t, rfl⟩ := List.exists_cons_of_ne_nil h
    have htake : (c :: t).take 64 = c :: t.take 63 := rfl
    have hc : c ≠ '-' := hs c (by simp)
    rw [htake, List.filter_cons_of_pos (by simpa using hc), List.flatten_cons, ← htake,
      ih (fun ch hm => hs ch (List.drop_subset _ _ hm)), List.take_append_drop]

/-- Stripping the frame of a PEM block recovers the unwrapped base64
body. -/
theorem stripFrames_pemFrame (label : String) (der : List Byte)
    (hlab : ∀ ch ∈ label.toList, ch ≠ '\n') :
    stripFrames (pemFrame label der) = base64Encode der := by
  unfold pemFrame stripFrames
  have htl : ∀ a b : String, (a ++ b).toList = a.toList ++ b.toList := fun a b => rfl
  have hsplit : "-----\n".toList = "-----".toList ++ ['\n'] := rfl
  have hlA : '\n' ∉ "-----BEGIN ".toList ++ (label.toList ++ "-----".toList) := by
    intro hm
    rcases List.mem_append.mp hm with hm1 | hm2
    · exact absurd hm1 (by decide)
    · rcases List.mem_append.mp hm2 with hm2a | hm2b
      · exact hlab _ hm2a rfl
      · exact absurd hm2b (by decide)
  have hlC : '\n' ∉ "-----END ".toList ++ (label.toList ++ "-----".toList) := by
    intro hm
    rcases List.mem_append.mp hm with hm1 | hm2
    · exact absurd hm1 (by decide)
    · rcases List.mem_append.mp hm2 with hm2a | hm2b
      · exact hlab _ hm2a rfl
      · exact absurd hm2b (by decide)
  have hbodynl : ∀ ch ∈ base64Encode der, ch ≠ '\n' :=
    fun ch hm => (base64Encode_chars der ch hm).1
  have hbodydash : ∀ ch ∈ base64Encode der, ch ≠ '-' :=
    fun ch hm => (base64Encode_chars der ch hm).2
  simp only [htl, hsplit, List.append_assoc, List.singleton_append, List.cons_append,
    List.nil_append]
  rw [splitLines_prefix3 _ _ _ _ hlA, splitLines_wrap64_append _ _ hbodynl,
    splitLines_prefix3 _ _ _ _ hlC]
  rw [List.filter_cons_of_neg (by simp), List.filter_append,
    List.filter_cons_of_neg (by simp)]
  have htail : (List.filter (fun l => decide (l.headD ' ' ≠ '-')) [[]]).flatten
      = ([] : List Char) := rfl
  have hnil : splitLines ([] : List Char) = [[]] := rfl
  rw [hnil, List.flatten_append, htail, List.append_nil]
  exact flatten_filter_chunks _ hbodydash

/-- The source encoder agrees everywhere with the claim's description
of it (shared helper for the PEM claims). -/
theorem ASN1toPEM_eq (buf : List Byte) : ASN1toPEM buf = ASN1toPEM_described buf := by
  unfold ASN1toPEM ASN1toPEM_described pemFrame
  by_cases h : buf.length = 65 ∧ buf.headD 0 = 4
  · rw [if_pos h, if_pos h]
    dsimp only
    rw [pemWrap_eq_wrap64]
    have hpre : hexToBytes "3059301306072a8648ce3d020106082a8648ce3d030107034200".toList
        = spkiHeaderBytes := by decide
    rw [hpre]
  · rw [if_neg h, if_neg h]
    dsimp only
    rw [pemWrap_eq_wrap64]

/-- C7.  The DER/PEM encoder behaves exactly as described: a 65-byte
buffer with leading 0x04 is prefixed with the fixed 26-byte
SubjectPublicKeyInfo header (hex 3059301306072a8648ce3d02010608
2a8648ce3d030107034200) and framed as PUBLIC KEY; any other buffer is
framed unchanged as CERTIFICATE; in both cases the body is base64,
wrapped at 64 characters per line, between BEGIN and END lines. -/
theorem ASN1toPEM_matches_description (buf : List Byte) :
    ASN1toPEM buf = ASN1toPEM_described buf :=
  ASN1toPEM_eq buf

/-- C8.  PEM round-trip: dropping the frame lines of the encoder's
output and base64-decoding the remaining body yields exactly the
wrapped DER bytes — the 26-byte header plus the 65-byte point on the
synthesized-key path, and the unchanged input buffer on the certificate
path. -/
theorem pem_roundTrip (buf : List Byte) :
    base64Decode (stripFrames (ASN1toPEM buf)) =
      some (if buf.length = 65 ∧ buf.headD 0 = 4 then spkiHeaderBytes ++ buf else buf) := by
  rw [ASN1toPEM_eq]
  unfold ASN1toPEM_described
  by_cases h : buf.length = 65 ∧ buf.headD 0 = 4
  · rw [if_pos h, if_pos h, stripFrames_pemFrame _ _ (by decide),
      base64Decode_base64Encode]
  · rw [if_neg h, if_neg h, stripFrames_pemFrame _ _ (by decide),
      base64Decode_base64Encode]
